import Mathlib

/-!
# Verification of the `semantic-divergence` reference interpreter

A shallow embedding of `src/crates/interpreters/src/lib.rs`, a minimal
tree-walking interpreter for a small imperative snippet language
(declarations, references, dereferences, assignments), together with
theorems settling the specification's claims about it.

Modelling conventions:
* `syn::Ident` (the `Place` type) is modelled as `String`.
* A `syn::Path` is modelled by its list of segment identifiers; the source
  calls `path.get_ident().unwrap()`, which yields the single segment when
  there is exactly one and panics otherwise.
* `anyhow::Result` errors produced by `bail!`/`with_context` are the
  recoverable `EvalErr` variants `notFound`, `undefinedRead`, `typeMismatch`;
  a Rust panic (`unimplemented!`, `todo!`, `Option::unwrap` on `None`) is the
  distinct non-recoverable variant `EvalErr.fatal`.
* `&mut Environment` is modelled by explicit state passing: a function that
  mutates the environment returns the updated environment alongside its
  `Except` result, so mutations performed before an error are preserved,
  exactly as they are in the caller's `Environment` in Rust.
* `Environment` (a `HashMap<Place, Value>`) is an association list whose
  `insert` keeps keys unique; `lookup`/`get` read the first (hence only)
  binding of a key.
-/

/-- `UnOp` from `syn`: the three unary operators. The interpreter only
supports `Deref`. -/
inductive UnOp
  | deref
  | neg
  | not_
  deriving DecidableEq, Repr

/-- `syn::Lit`: the interpreter's `Display` only handles `Lit::Int` (rendered
by its token text); every other literal kind hits `todo!`. -/
inductive Lit
  | int (tok : String)
  | other (tag : String)
  deriving DecidableEq, Repr

/-- `Value` from the source: `Unit`, `Lit(Lit)`, `Ref(Place)`, `Undefined`. -/
inductive Value
  | unit
  | lit (l : Lit)
  | ref (place : String)
  | undefined
  deriving DecidableEq, Repr

/-- `syn::Expr`, restricted to the variants the evaluator matches on, plus a
catch-all constructor `other` standing for every remaining `syn::Expr`
variant (which the source sends to `unimplemented!`). -/
inductive Expr
  | lit (l : Lit)
  | path (segs : List String)
  | reference (inner : Expr)
  | unary (op : UnOp) (inner : Expr)
  | assign (left : Expr) (right : Expr)
  | other (tag : String)
  deriving DecidableEq, Repr

/-- `syn::Pat`: the evaluator only supports `Pat::Ident`; every other pattern
shape hits `unimplemented!`. -/
inductive Pat
  | ident (name : String)
  | other (tag : String)
  deriving DecidableEq, Repr

/-- `syn::Stmt`: `Stmt::Local` (a `let` with optional initializer),
`Stmt::Semi` (expression statement), and a catch-all for the remaining
variants (which the source sends to `unimplemented!`). -/
inductive Stmt
  | letStmt (pat : Pat) (init : Option Expr)
  | semi (e : Expr)
  | other (tag : String)
  deriving DecidableEq, Repr

/-- A `syn::Block` is its ordered list of statements. -/
abbrev Block := List Stmt

/-- Evaluation errors. The first three model the `anyhow` errors the source
raises with `with_context`/`bail!` (recoverable `Result::Err` values); `fatal`
models a Rust panic (`unimplemented!`, `todo!`, or `Option::unwrap` on
`None`), which aborts instead of returning to the caller. -/
inductive EvalErr
  | notFound (place : String)
  | undefinedRead (place : String)
  | typeMismatch (v : Value)
  | fatal (msg : String)
  deriving DecidableEq, Repr

/-- An `EvalErr` is recoverable iff it is an `anyhow` error handed back to the
caller as `Result::Err`; a panic is not. -/
def EvalErr.recoverable : EvalErr → Bool
  | .fatal _ => false
  | _ => true

/-- `path.get_ident()`: `some` of the single segment when the path is exactly
one plain segment, `none` otherwise. -/
def getIdent : List String → Option String
  | [seg] => some seg
  | _ => none

/-- `Environment`: the `HashMap<Place, Value>` store, as an association list
with unique keys. -/
def Environment := List (String × Value)
  deriving DecidableEq, Repr

instance : Membership (String × Value) Environment :=
  inferInstanceAs (Membership (String × Value) (List (String × Value)))

/-- `Environment::default()`: the empty store. -/
def Environment.empty : Environment := []

/-- `HashMap::get`: the raw binding of a place, if present. -/
def Environment.get (env : Environment) (place : String) : Option Value :=
  (List.find? (fun kv => kv.1 = place) env).map (fun kv => kv.2)

/-- `Environment::lookup`: `NotFound` ("Cannot find place") when the place is
absent, `UndefinedRead` ("Attempting to read undefined place") when it is
bound to `Undefined`, otherwise the bound value. Takes the environment by
shared reference in the source, so it never mutates it. -/
def Environment.lookup (env : Environment) (place : String) : Except EvalErr Value :=
  match env.get place with
  | none => .error (.notFound place)
  | some .undefined => .error (.undefinedRead place)
  | some v => .ok v

/-- `Environment::insert`: `HashMap::insert`, an unconditional upsert that
never fails and drops any previous binding of the place. -/
def Environment.insert (env : Environment) (place : String) (v : Value) : Environment :=
  (place, v) :: List.filter (fun kv => kv.1 ≠ place) env

/-- `ReferenceModel::eval_place`: resolve an expression denoting a storage
location to the underlying place name. A path resolves to its single
identifier (`get_ident().unwrap()`); a dereference resolves its operand to a
place, looks it up, and requires a `Ref`, failing with
"Cannot deref value" (`typeMismatch`) otherwise; every other shape hits
`unimplemented!`. The environment is taken by shared reference. -/
def evalPlace : Expr → Environment → Except EvalErr String
  | .path segs, _ =>
    match getIdent segs with
    | some id => .ok id
    | none => .error (.fatal "get_ident: unwrap on None")
  | .unary .deref inner, env =>
    match evalPlace inner env with
    | .error e => .error e
    | .ok place =>
      match env.lookup place with
      | .error e => .error e
      | .ok (.ref p) => .ok p
      | .ok v => .error (.typeMismatch v)
  | _, _ => .error (.fatal "eval_place: unimplemented expr")

/-- `ReferenceModel::eval_expr`. Mutation of the `&mut Environment` is made
explicit: the returned environment carries every insertion performed before
the function returned or failed. Literal → the literal value; path → lookup
of its identifier (cloned); reference-of a path → `Ref` of the identifier,
without touching the store; dereference → resolve the whole expression via
`eval_place`, then look the place up; assignment → resolve the left side to a
place, evaluate the right side, insert, yield `Unit`; every other shape hits
`unimplemented!`. -/
def evalExpr : Expr → Environment → Environment × Except EvalErr Value
  | .lit l, env => (env, .ok (.lit l))
  | .path segs, env =>
    match getIdent segs with
    | some id => (env, env.lookup id)
    | none => (env, .error (.fatal "get_ident: unwrap on None"))
  | .reference inner, env =>
    match inner with
    | .path segs =>
      match getIdent segs with
      | some id => (env, .ok (.ref id))
      | none => (env, .error (.fatal "get_ident: unwrap on None"))
    | _ => (env, .error (.fatal "eval_expr: unimplemented reference operand"))
  | .unary .deref inner, env =>
    match evalPlace (.unary .deref inner) env with
    | .error e => (env, .error e)
    | .ok place => (env, env.lookup place)
  | .assign left right, env =>
    match evalPlace left env with
    | .error e => (env, .error e)
    | .ok place =>
      match evalExpr right env with
      | (env', .error e) => (env', .error e)
      | (env', .ok v) => (env'.insert place v, .ok .unit)
  | _, env => (env, .error (.fatal "eval_expr: unimplemented expr"))

/-- `ReferenceModel::eval_stmt`. A `let` first requires a plain identifier
pattern (`unimplemented!` otherwise), then binds the evaluated initializer,
or `Undefined` when there is none; an expression statement evaluates the
expression and discards its value; every other statement shape hits
`unimplemented!`. -/
def evalStmt : Stmt → Environment → Environment × Except EvalErr Unit
  | .letStmt pat init, env =>
    match pat with
    | .ident name =>
      match init with
      | some rhs =>
        match evalExpr rhs env with
        | (env', .error e) => (env', .error e)
        | (env', .ok v) => (env'.insert name v, .ok ())
      | none => (env.insert name .undefined, .ok ())
    | .other _ => (env, .error (.fatal "eval_stmt: unimplemented pattern"))
  | .semi e, env =>
    match evalExpr e env with
    | (env', .error er) => (env', .error er)
    | (env', .ok _) => (env', .ok ())
  | .other _, env => (env, .error (.fatal "eval_stmt: unimplemented stmt"))

/-- `ReferenceModel`'s `Interpreter::eval_block`: run the statements in source
order against the shared environment, stopping at and propagating the first
failure. -/
def evalBlock : Block → Environment → Environment × Except EvalErr Unit
  | [], env => (env, .ok ())
  | s :: rest, env =>
    match evalStmt s env with
    | (env', .error e) => (env', .error e)
    | (env', .ok _) => evalBlock rest env'

/-- `Interpreter::interpret`, from the already-parsed block (parsing the raw
source text is delegated to `syn`, the external collaborator outside this
spec's scope): evaluate the block against a freshly created empty
environment, returning the final environment on success and the first error
otherwise — the mutated environment is dropped on failure. -/
def interpret (block : Block) : Except EvalErr Environment :=
  match evalBlock block Environment.empty with
  | (_, .error e) => .error e
  | (env, .ok _) => .ok env

/-- The order used by `entries.sort_by_key(|(k, _)| k.clone())`: ascending by
binding name. -/
def keyLe (a b : String × Value) : Prop := a.1 ≤ b.1

instance : DecidableRel keyLe := fun a b =>
  decidable_of_iff (a.1.toList ≤ b.1.toList) (String.le_iff_toList_le).symm

instance : IsTotal (String × Value) keyLe := ⟨fun a b => le_total a.1 b.1⟩

instance : IsTrans (String × Value) keyLe := ⟨fun _ _ _ h h' => le_trans h h'⟩

/-- `entries.sort_by_key(|(k, _)| k.clone())` from `Display for Environment`:
a stable sort of the bindings, ascending by name (modelled by insertion sort,
which is stable). -/
def Environment.sortedEntries (env : Environment) : List (String × Value) :=
  List.insertionSort keyLe env

/-- `Display for Value`: `Unit` → `()`, `Lit::Int` → its token text,
`Ref(p)` → `&p`, `Undefined` → `undefined`; any other literal kind hits
`todo!`, modelled as `none`. -/
def Value.render : Value → Option String
  | .unit => some "()"
  | .lit (.int tok) => some tok
  | .lit (.other _) => none
  | .ref p => some ("&" ++ p)
  | .undefined => some "undefined"

/-- One line of `Display for Environment`: `name ↦ value` followed by a
newline. (The `↦` is U+21A6; the snapshot of the source stores this character
double-encoded.) -/
def renderLine (kv : String × Value) : Option String :=
  (kv.2.render).map (fun v => kv.1 ++ " ↦ " ++ v ++ "\n")

/-- The `for (k, v) in entries` loop of `Display for Environment`: append one
line per entry to the accumulated output, stopping with `none` if rendering a
value panics. -/
def writeEntries : List (String × Value) → String → Option String
  | [], acc => some acc
  | kv :: rest, acc =>
    match renderLine kv with
    | none => none
    | some line => writeEntries rest (acc ++ line)

/-- `Display for Environment`: sort the bindings by name, then emit one
`name ↦ value` line per binding, in order. -/
def Environment.display (env : Environment) : Option String :=
  writeEntries env.sortedEntries ""

/-- Concatenation of a list of rendered lines, used to state what `display`
produces. -/
def concatLines : List String → String
  | [] => ""
  | l :: ls => l ++ concatLines ls

/-! ## Infrastructure lemmas -/

/-- Searching for key `q` ignores the extra "key is not `p`" conjunct that
filtering the store on `insert` introduces, as long as `q ≠ p`. -/
theorem find_filter_ne (p q : String) (h : q ≠ p) :
    ∀ l : List (String × Value),
      List.find? (fun a => !decide (a.1 = p) && decide (a.1 = q)) l
        = List.find? (fun a => decide (a.1 = q)) l := by
  intro l
  induction l with
  | nil => rfl
  | cons kv rest ih =>
    by_cases hq : kv.1 = q
    · have hp : ¬ kv.1 = p := fun hc => h (hq ▸ hc)
      simp [List.find?_cons, hq, hp, h]
    · simp [List.find?_cons, hq, ih]

/-- Reading back from an upserted store: the inserted place now holds the new
value, and every other place is untouched. -/
theorem Environment.get_insert (env : Environment) (p q : String) (v : Value) :
    (env.insert p v).get q = if q = p then some v else env.get q := by
  by_cases h : q = p
  · subst h
    simp [Environment.insert, Environment.get, List.find?_cons]
  · have hpv : ¬ (p = q) := fun hc => h hc.symm
    simp [Environment.insert, Environment.get, List.find?_cons, hpv, h]
    rw [find_filter_ne p q h env]

/-- `eval_expr` never mutates the environment when it fails: every `insert`
in its body happens after all fallible sub-evaluations already succeeded. -/
theorem evalExpr_error_eq (ex : Expr) :
    ∀ env env' e, evalExpr ex env = (env', Except.error e) → env' = env := by
  induction ex with
  | lit l => intro env env' e h; simp [evalExpr] at h
  | path segs =>
    intro env env' e h
    cases hg : getIdent segs <;> simp [evalExpr, hg] at h <;> exact h.1.symm
  | reference inner ih =>
    intro env env' e h
    cases inner <;> simp [evalExpr] at h <;> try exact h.1.symm
    case path segs =>
      cases hg : getIdent segs <;> simp [hg] at h
      exact h.1.symm
  | unary op inner ih =>
    intro env env' e h
    cases op
    case deref =>
      simp only [evalExpr] at h
      cases hp : evalPlace (Expr.unary UnOp.deref inner) env <;> simp [hp] at h
      · exact h.1.symm
      · exact h.1.symm
    case neg => simp [evalExpr] at h; exact h.1.symm
    case not_ => simp [evalExpr] at h; exact h.1.symm
  | assign left right ihl ihr =>
    intro env env' e h
    simp only [evalExpr] at h
    cases hp : evalPlace left env <;> simp [hp] at h
    · exact h.1.symm
    · cases hr : evalExpr right env with
      | mk envr res =>
        cases res <;> simp [hr] at h
        exact h.1.symm ▸ ihr env envr e (by rw [hr, h.2])
  | other tag =>
    intro env env' e h
    simp [evalExpr] at h
    exact h.1.symm

/-- `eval_stmt` never mutates the environment when it fails. -/
theorem evalStmt_error_eq (s : Stmt) :
    ∀ env env' e, evalStmt s env = (env', Except.error e) → env' = env := by
  cases s with
  | letStmt pat init =>
    intro env env' e h
    cases pat with
    | ident name =>
      cases init with
      | some rhs =>
        simp only [evalStmt] at h
        cases hr : evalExpr rhs env with
        | mk envr res =>
          cases res <;> simp [hr] at h
          exact h.1.symm ▸ evalExpr_error_eq rhs env envr e (by rw [hr, h.2])
      | none => simp [evalStmt] at h
    | other tag => simp [evalStmt] at h; exact h.1.symm
  | semi ex =>
    intro env env' e h
    simp only [evalStmt] at h
    cases hr : evalExpr ex env with
    | mk envr res =>
      cases res <;> simp [hr] at h
      exact h.1.symm ▸ evalExpr_error_eq ex env envr e (by rw [hr, h.2])
  | other tag =>
    intro env env' e h
    simp [evalStmt] at h
    exact h.1.symm

/-- Running a concatenated block is running the first part, then — only if it
fully succeeded — the second part from where the first left off. -/
theorem evalBlock_append (xs ys : Block) (env : Environment) :
    evalBlock (xs ++ ys) env =
      match evalBlock xs env with
      | (env', .error e) => (env', .error e)
      | (env', .ok _) => evalBlock ys env' := by
  induction xs generalizing env with
  | nil => rfl
  | cons s rest ih =>
    show evalBlock (s :: (rest ++ ys)) env = _
    simp only [evalBlock]
    cases hs : evalStmt s env with
    | mk env1 res =>
      cases res with
      | error e => rfl
      | ok _ => exact ih env1

/-! ## Claim theorems -/

/-- Claim C1: references are live aliases, not snapshots. Evaluating
`let a = 1; let b = &a; a = 2; let c = *b;` from the empty environment
succeeds, and `c` is bound to the literal `2` written after the reference was
created, because `*b` re-reads place `a` at the moment of access. -/
theorem reference_is_live_alias :
    interpret
      [ .letStmt (.ident "a") (some (.lit (.int "1"))),
        .letStmt (.ident "b") (some (.reference (.path ["a"]))),
        .semi (.assign (.path ["a"]) (.lit (.int "2"))),
        .letStmt (.ident "c") (some (.unary .deref (.path ["b"]))) ]
      = .ok [("c", .lit (.int "2")), ("a", .lit (.int "2")), ("b", .ref "a")]
    ∧ Environment.get
        [("c", .lit (.int "2")), ("a", .lit (.int "2")), ("b", .ref "a")] "c"
      = some (.lit (.int "2")) :=
  ⟨rfl, rfl⟩

/-- Claim C2 (counterexample): a statement outside the supported grammar does
not produce a recoverable `UnsupportedConstruct` error — the source hits
`unimplemented!`, a panic, which is not recoverable. -/
theorem unsupported_construct_not_recoverable_cex :
    evalStmt (.other "Stmt::Item") Environment.empty
      = (Environment.empty, .error (.fatal "eval_stmt: unimplemented stmt"))
    ∧ EvalErr.recoverable (.fatal "eval_stmt: unimplemented stmt") = false :=
  ⟨rfl, rfl⟩

/-- Claim C2 (amended): every statement or expression shape outside the
supported subset aborts evaluation with a panic
(`unimplemented!`/`Option::unwrap`), never a recoverable error: unknown
expression variants, unary operators other than deref, reference-of a
non-path operand, multi-segment paths, unknown statement variants, and
non-identifier patterns all panic, and a panic is not recoverable. -/
theorem unsupported_constructs_panic :
    ∀ env : Environment,
      (∀ tag, evalExpr (.other tag) env
        = (env, .error (.fatal "eval_expr: unimplemented expr")))
      ∧ (∀ inner, evalExpr (.unary .neg inner) env
        = (env, .error (.fatal "eval_expr: unimplemented expr")))
      ∧ (∀ inner, evalExpr (.unary .not_ inner) env
        = (env, .error (.fatal "eval_expr: unimplemented expr")))
      ∧ (∀ tag, evalExpr (.reference (.other tag)) env
        = (env, .error (.fatal "eval_expr: unimplemented reference operand")))
      ∧ (∀ seg1 seg2 rest, evalExpr (.path (seg1 :: seg2 :: rest)) env
        = (env, .error (.fatal "get_ident: unwrap on None")))
      ∧ (∀ tag, evalStmt (.other tag) env
        = (env, .error (.fatal "eval_stmt: unimplemented stmt")))
      ∧ (∀ tag init, evalStmt (.letStmt (.other tag) init) env
        = (env, .error (.fatal "eval_stmt: unimplemented pattern")))
      ∧ (∀ tag, evalPlace (.other tag) env
        = .error (.fatal "eval_place: unimplemented expr"))
      ∧ (∀ m, EvalErr.recoverable (.fatal m) = false) :=
  fun _ =>
    ⟨fun _ => rfl, fun _ => rfl, fun _ => rfl, fun _ => rfl, fun _ _ _ => rfl,
     fun _ => rfl, fun _ _ => rfl, fun _ => rfl, fun _ => rfl⟩

/-- Claim C3: `lookup` fails with `NotFound` exactly when the place is absent,
fails with the distinct `UndefinedRead` exactly when the place is bound to
the `Undefined` sentinel, and otherwise returns the bound value. `lookup`
takes the store by shared reference (here: it is a pure function of the
environment), so it never mutates it. -/
theorem lookup_spec (env : Environment) (p : String) :
    (env.lookup p = .error (.notFound p) ↔ env.get p = none)
    ∧ (env.lookup p = .error (.undefinedRead p) ↔ env.get p = some .undefined)
    ∧ (∀ v, env.get p = some v → v ≠ .undefined → env.lookup p = .ok v)
    ∧ (∀ v, env.lookup p = .ok v → env.get p = some v ∧ v ≠ .undefined) := by
  unfold Environment.lookup
  cases hg : env.get p with
  | none => simp
  | some v => cases v <;> simp

/-- Witness for C3 at a concrete store. -/
theorem lookup_spec_witness :
    Environment.lookup [("a", Value.lit (.int "1"))] "a" = .ok (.lit (.int "1")) :=
  (lookup_spec [("a", Value.lit (.int "1"))] "a").2.2.1 (.lit (.int "1")) rfl
    (fun h => Value.noConfusion h)

/-- Claim C4: place resolution. A bare name resolves to itself; a dereference
resolves its operand to a place, looks it up, and yields the referent when
the stored value is a `Ref`, while any non-`Ref` value makes it fail with
`TypeMismatch`; the deref case recurses through its operand, so each
syntactic `*` follows exactly one live hop. -/
theorem place_resolution_spec :
    (∀ (env : Environment) (x : String), evalPlace (.path [x]) env = .ok x)
    ∧ (∀ (env : Environment) (inner : Expr) (p q : String),
        evalPlace inner env = .ok p → env.lookup p = .ok (.ref q) →
        evalPlace (.unary .deref inner) env = .ok q)
    ∧ (∀ (env : Environment) (inner : Expr) (p : String) (v : Value),
        evalPlace inner env = .ok p → env.lookup p = .ok v → (∀ q, v ≠ .ref q) →
        evalPlace (.unary .deref inner) env = .error (.typeMismatch v)) := by
  refine ⟨fun env x => rfl, ?_, ?_⟩
  · intro env inner p q hp hl
    simp [evalPlace, hp, hl]
  · intro env inner p v hp hl hv
    cases v with
    | ref q => exact absurd rfl (hv q)
    | unit => simp [evalPlace, hp, hl]
    | lit l => simp [evalPlace, hp, hl]
    | undefined => simp [evalPlace, hp, hl]

/-- Witness for C4: one live hop through `b ↦ &a`, and a `TypeMismatch` when
dereferencing the integer stored at `a`. -/
theorem place_resolution_witness :
    evalPlace (.unary .deref (.path ["b"]))
        [("b", Value.ref "a"), ("a", Value.lit (.int "1"))] = .ok "a"
    ∧ evalPlace (.unary .deref (.path ["a"]))
        [("b", Value.ref "a"), ("a", Value.lit (.int "1"))]
      = .error (.typeMismatch (Value.lit (.int "1"))) :=
  ⟨place_resolution_spec.2.1 [("b", Value.ref "a"), ("a", Value.lit (.int "1"))]
      (.path ["b"]) "b" "a" rfl rfl,
   place_resolution_spec.2.2 [("b", Value.ref "a"), ("a", Value.lit (.int "1"))]
      (.path ["a"]) "a" (Value.lit (.int "1")) rfl rfl
      (fun _ h => Value.noConfusion h)⟩

/-- Claim C5: assignment resolves the left side to a place first (a failing
left side stops evaluation before the right side runs), then evaluates the
right side, then upserts the resolved place, and the assignment's own value
is `Unit`; assigning through a dereference chain therefore writes to the
ultimate referent (`*b = 7` updates `a`, leaving `b ↦ &a` intact). -/
theorem assign_spec :
    (∀ (left right : Expr) (env : Environment) (e : EvalErr),
        evalPlace left env = .error e →
        evalExpr (.assign left right) env = (env, .error e))
    ∧ (∀ (left right : Expr) (env env' : Environment) (place : String) (v : Value),
        evalPlace left env = .ok place →
        evalExpr right env = (env', .ok v) →
        evalExpr (.assign left right) env = (env'.insert place v, .ok .unit))
    ∧ evalBlock
        [ .letStmt (.ident "a") (some (.lit (.int "1"))),
          .letStmt (.ident "b") (some (.reference (.path ["a"]))),
          .semi (.assign (.unary .deref (.path ["b"])) (.lit (.int "7"))) ]
        Environment.empty
      = ([("a", .lit (.int "7")), ("b", .ref "a")], .ok ()) := by
  refine ⟨?_, ?_, rfl⟩
  · intro left right env e hp
    simp [evalExpr, hp]
  · intro left right env env' place v hp hr
    simp [evalExpr, hp, hr]

/-- Witness for C5: a failing left side aborts the assignment with the
environment untouched, and a plain assignment upserts and yields `Unit`. -/
theorem assign_spec_witness :
    evalExpr (.assign (.unary .deref (.path ["z"])) (.lit (.int "1")))
        Environment.empty
      = (Environment.empty, .error (.notFound "z"))
    ∧ evalExpr (.assign (.path ["a"]) (.lit (.int "5"))) Environment.empty
      = (Environment.empty.insert "a" (.lit (.int "5")), .ok .unit) :=
  ⟨assign_spec.1 (.unary .deref (.path ["z"])) (.lit (.int "1"))
      Environment.empty (.notFound "z") rfl,
   assign_spec.2.1 (.path ["a"]) (.lit (.int "5")) Environment.empty
      Environment.empty "a" (.lit (.int "5")) rfl rfl⟩

/-- Claim C6: the block driver runs statements in source order against the
one shared environment, halts at the first failing statement, propagates its
error unchanged (the following statements never run), and `interpret` returns
either the complete final environment or that first error — never a partial
environment on failure. -/
theorem block_fail_fast_spec :
    (∀ (pre : Block) (s : Stmt) (post : Block) (env env1 env2 : Environment)
        (e : EvalErr),
        evalBlock pre env = (env1, .ok ()) →
        evalStmt s env1 = (env2, .error e) →
        evalBlock (pre ++ s :: post) env = (env2, .error e))
    ∧ (∀ (block : Block) (env : Environment),
        evalBlock block Environment.empty = (env, .ok ()) →
        interpret block = .ok env)
    ∧ (∀ (block : Block) (env : Environment) (e : EvalErr),
        evalBlock block Environment.empty = (env, .error e) →
        interpret block = .error e) := by
  refine ⟨?_, ?_, ?_⟩
  · intro pre s post env env1 env2 e h1 h2
    rw [evalBlock_append, h1]
    show evalBlock (s :: post) env1 = _
    simp only [evalBlock]
    rw [h2]
  · intro block env h
    unfold interpret
    rw [h]
  · intro block env e h
    unfold interpret
    rw [h]

/-- Witness for C6: a block failing at its second statement stops there with
that error, and `interpret` maps block success and block failure to `Ok` and
`Err` respectively. -/
theorem block_fail_fast_witness :
    evalBlock ([.letStmt (.ident "a") (some (.lit (.int "1")))]
        ++ Stmt.semi (.path ["z"])
          :: [.letStmt (.ident "c") (some (.lit (.int "3")))])
        Environment.empty
      = ([("a", Value.lit (.int "1"))], .error (.notFound "z"))
    ∧ interpret [.semi (.path ["z"])] = .error (.notFound "z")
    ∧ interpret [.letStmt (.ident "a") (some (.lit (.int "1")))]
      = .ok [("a", Value.lit (.int "1"))] :=
  ⟨block_fail_fast_spec.1 [.letStmt (.ident "a") (some (.lit (.int "1")))]
      (.semi (.path ["z"])) [.letStmt (.ident "c") (some (.lit (.int "3")))]
      Environment.empty [("a", Value.lit (.int "1"))]
      [("a", Value.lit (.int "1"))] (.notFound "z") rfl rfl,
   block_fail_fast_spec.2.2 [.semi (.path ["z"])] Environment.empty
      (.notFound "z") rfl,
   block_fail_fast_spec.2.1 [.letStmt (.ident "a") (some (.lit (.int "1")))]
      [("a", Value.lit (.int "1"))] rfl⟩

/-- Claim C7: `insert` is an unconditional, total upsert: the inserted place
reads back as the new value and every other place is untouched, so re-binding
hides the prior value; concretely, after `let a = 1; let a = 2;` the store
holds exactly `a ↦ 2`, which `lookup` returns. -/
theorem insert_upsert_spec :
    (∀ (env : Environment) (p q : String) (v : Value),
        (env.insert p v).get q = if q = p then some v else env.get q)
    ∧ evalBlock
        [ .letStmt (.ident "a") (some (.lit (.int "1"))),
          .letStmt (.ident "a") (some (.lit (.int "2"))) ]
        Environment.empty
      = ([("a", .lit (.int "2"))], .ok ())
    ∧ Environment.lookup [("a", .lit (.int "2"))] "a" = .ok (.lit (.int "2")) :=
  ⟨Environment.get_insert, rfl, rfl⟩

/-- Claim C8: taking a reference to a bare name never touches the store: in
every environment — including one where the name is unbound or bound to
`Undefined` — it succeeds with `Ref(name)`, performs no lookup, and leaves
the environment unchanged. -/
theorem reference_of_name_pure :
    ∀ (env : Environment) (name : String),
      evalExpr (.reference (.path [name])) env = (env, .ok (.ref name)) :=
  fun _ _ => rfl

/-- Claim C10: a declaration whose initializer fails binds nothing (the
environment comes back exactly as it was), and a block that fails at
statement `k` hands back precisely the environment produced by the `k − 1`
preceding successful statements — the failing statement itself contributed no
mutation, and nothing is rolled back. -/
theorem failed_stmt_binds_nothing :
    (∀ (name : String) (rhs : Expr) (env env' : Environment) (e : EvalErr),
        evalExpr rhs env = (env', .error e) →
        evalStmt (.letStmt (.ident name) (some rhs)) env = (env, .error e))
    ∧ (∀ (stmts : Block) (env env' : Environment) (e : EvalErr),
        evalBlock stmts env = (env', .error e) →
        ∃ pre s post, stmts = pre ++ s :: post
          ∧ evalBlock pre env = (env', .ok ())
          ∧ evalStmt s env' = (env', .error e)) := by
  constructor
  · intro name rhs env env' e h
    have heq : env' = env := evalExpr_error_eq rhs env env' e h
    subst heq
    simp [evalStmt, h]
  · intro stmts
    induction stmts with
    | nil => intro env env' e h; simp [evalBlock] at h
    | cons s rest ih =>
      intro env env' e h
      simp only [evalBlock] at h
      cases hs : evalStmt s env with
      | mk env1 res =>
        rw [hs] at h
        cases res with
        | error e1 =>
          have h' : (env1, (Except.error e1 : Except EvalErr Unit))
              = (env', Except.error e) := h
          have h1 : env1 = env' := congrArg Prod.fst h'
          have h2 : e1 = e := by
            have := congrArg Prod.snd h'
            injection this
          subst h1
          subst h2
          have henv : env1 = env := evalStmt_error_eq s env env1 e1 hs
          subst henv
          exact ⟨[], s, rest, rfl, rfl, hs⟩
        | ok u =>
          have h' : evalBlock rest env1 = (env', Except.error e) := h
          obtain ⟨pre, s', post, heq, hpre, hst⟩ := ih env1 env' e h'
          refine ⟨s :: pre, s', post, by rw [heq, List.cons_append], ?_, hst⟩
          show evalBlock (s :: pre) env = _
          simp only [evalBlock]
          rw [hs]
          exact hpre

/-- Witness for C10: a failed `let` leaves the empty store empty, and the
two-statement block failing at its second statement hands back exactly the
binding made by the first. -/
theorem failed_stmt_binds_nothing_witness :
    evalStmt (.letStmt (.ident "x") (some (.path ["y"]))) Environment.empty
      = (Environment.empty, .error (.notFound "y"))
    ∧ ∃ pre s post,
        ([.letStmt (.ident "a") (some (.lit (.int "1"))),
          .semi (.path ["z"])] : Block) = pre ++ s :: post
        ∧ evalBlock pre Environment.empty
            = ([("a", Value.lit (.int "1"))], .ok ())
        ∧ evalStmt s [("a", Value.lit (.int "1"))]
            = ([("a", Value.lit (.int "1"))], .error (.notFound "z")) :=
  ⟨failed_stmt_binds_nothing.1 "x" (.path ["y"]) Environment.empty
      Environment.empty (.notFound "y") rfl,
   failed_stmt_binds_nothing.2
      [.letStmt (.ident "a") (some (.lit (.int "1"))), .semi (.path ["z"])]
      Environment.empty [("a", Value.lit (.int "1"))] (.notFound "z") rfl⟩

/-- When every value in the list renders without panicking, the display loop
produces the accumulator followed by one line per entry, in order. -/
theorem writeEntries_all_some (l : List (String × Value)) :
    ∀ acc : String, (∀ kv ∈ l, (Value.render kv.2).isSome = true) →
      writeEntries l acc = some (acc ++ concatLines (l.map (fun kv =>
        kv.1 ++ " ↦ " ++ (Value.render kv.2).getD "" ++ "\n"))) := by
  induction l with
  | nil =>
    intro acc _
    simp [writeEntries, concatLines, String.append_empty]
  | cons kv rest ih =>
    intro acc h
    obtain ⟨s, hs⟩ :=
      Option.isSome_iff_exists.mp (h kv (List.mem_cons_self kv rest))
    have hline : renderLine kv = some (kv.1 ++ " ↦ " ++ s ++ "\n") := by
      simp [renderLine, hs]
    simp only [writeEntries, hline, List.map_cons, concatLines]
    rw [ih (acc ++ (kv.1 ++ " ↦ " ++ s ++ "\n"))
      (fun kv' hm => h kv' (List.mem_cons_of_mem kv hm)), hs]
    simp [String.append_assoc]

/-- Claim C9: diagnostic rendering is deterministic: the displayed entries
are the bindings re-ordered ascending by name (a sorted permutation), the
output is exactly one `name ↦ value` line per binding in that order, values
render as `()` / integer token / `&name` / `undefined`, and on the spec's
example `{b: &a, a: 1}` the `a` line precedes the `b` line. -/
theorem display_sorted_spec :
    (∀ env : Environment,
        List.Sorted keyLe env.sortedEntries
        ∧ env.sortedEntries.Perm env
        ∧ ((∀ kv ∈ env, (Value.render kv.2).isSome = true) →
            env.display = some (concatLines (env.sortedEntries.map (fun kv =>
              kv.1 ++ " ↦ " ++ (Value.render kv.2).getD "" ++ "\n")))))
    ∧ Value.render .unit = some "()"
    ∧ (∀ tok, Value.render (.lit (.int tok)) = some tok)
    ∧ (∀ p, Value.render (.ref p) = some ("&" ++ p))
    ∧ Value.render .undefined = some "undefined"
    ∧ Environment.display [("b", .ref "a"), ("a", .lit (.int "1"))]
      = some "a ↦ 1\nb ↦ &a\n" := by
  refine ⟨?_, rfl, fun _ => rfl, fun _ => rfl, rfl, by decide⟩
  intro env
  refine ⟨List.sorted_insertionSort keyLe env, List.perm_insertionSort keyLe env, ?_⟩
  intro h
  have hsorted : ∀ kv ∈ env.sortedEntries, (Value.render kv.2).isSome = true :=
    fun kv hm => h kv ((List.perm_insertionSort keyLe env).mem_iff.mp hm)
  unfold Environment.display
  rw [writeEntries_all_some env.sortedEntries "" hsorted, String.empty_append]

/-- Witness for C9: the renderability hypothesis discharged on the concrete
store `{b: &a, a: 1}`. -/
theorem display_sorted_spec_witness :
    Environment.display [("b", Value.ref "a"), ("a", Value.lit (.int "1"))]
      = some (concatLines ((Environment.sortedEntries
          [("b", Value.ref "a"), ("a", Value.lit (.int "1"))]).map (fun kv =>
            kv.1 ++ " ↦ " ++ (Value.render kv.2).getD "" ++ "\n"))) :=
  (display_sorted_spec.1 [("b", Value.ref "a"), ("a", Value.lit (.int "1"))]).2.2
    (by decide)
